import Mathlib

/-!
Verification development for the `postgresql.driver` engine described in
`postgresql/documentation/driver.py`.  The repository ships the driver
documentation; the execution engine itself is not part of the source tree,
so every definition below is a shallow model written from the specification
text and settled against it.
-/

set_option maxRecDepth 4000

namespace PgDriver

/-- Modelled from the spec: Python-side values exchanged with the driver
(the implementation module is absent from the source tree).  Integers,
booleans, strings, byte strings, dates (day ordinal), timestamps
(microsecond ordinal), tuples and lists cover the values used by the
documented examples. -/
inductive PyVal where
  | pyInt (n : Int)
  | pyBool (b : Bool)
  | pyStr (s : String)
  | pyBytes (bs : List Nat)
  | pyDate (days : Int)
  | pyTimestamp (micros : Int)
  | pyTuple (vs : List PyVal)
  | pyList (vs : List PyVal)
deriving Repr

/-- Modelled from the spec: a Row is an immutable ordered sequence of
decoded values together with an ordered sequence of column names; the
name at index i refers to the value at index i. -/
structure Row where
  column_names : List String
  values : List PyVal
deriving Repr

/-- Modelled from the spec: the shape of a statement execution result as
reported by the server.  Either the statement returns row data (a
RowDescription followed by DataRow messages, possibly zero of them), or
it returns no row data at all and completes with a command tag carrying
the affected-row count. -/
inductive ExecResult where
  | rowData (column_names : List String) (rows : List Row)
  | cmdComplete (command : String) (count : Nat)

/-- Modelled from the spec: the possible results of the first reduction. -/
inductive FirstOut where
  | nothing
  | value (v : PyVal)
  | row (r : Row)
  | rowCount (n : Nat)

/-- Modelled from the spec: the first reduction of ps.first.  One result
column yields that column of the first row; several columns yield the
first Row; a result with no row data yields the affected-row count as an
integer; zero columns yield nothing. -/
def first : ExecResult → FirstOut
  | .rowData cols rows =>
    match cols with
    | [] => .nothing
    | [_] =>
      match rows with
      | [] => .nothing
      | r :: _ =>
        match r.values with
        | [] => .nothing
        | v :: _ => .value v
    | _ :: _ :: _ =>
      match rows with
      | [] => .nothing
      | r :: _ => .row r
  | .cmdComplete _ n => .rowCount n

/-- Modelled from the spec: the value produced by the whole-result call
interface ps(...): the buffered row sequence for row-returning
statements, and the (command name, affected-row count) pair for DML
without row data. -/
inductive CallOut where
  | rows (rs : List Row)
  | completed (command : String) (count : Nat)

/-- Modelled from the spec: the default execution method, the call
interface, materializes the whole result. -/
def callStatement : ExecResult → CallOut
  | .rowData _ rs => .rows rs
  | .cmdComplete cmd n => .completed cmd n

/-- Modelled from the spec: the transaction status byte carried by the
ready-for-query marker: idle, inside a transaction block, or inside a
failed transaction block. -/
inductive XactStatus where
  | idle
  | inblock
  | failed
deriving Repr, DecidableEq

/-- Modelled from the spec: the finalizing SQL command a block
transaction issues on context exit. -/
inductive TxAction where
  | commit
  | rollback
deriving Repr, DecidableEq

/-- Modelled from the spec: the source field of a driver error, telling a
client-detected fault apart from a server-reported one. -/
inductive ErrSource where
  | client
  | server
deriving Repr, DecidableEq

/-- Modelled from the spec: a driver exception with its class name,
message and source field. -/
structure DriverError where
  name : String
  message : String
  source : ErrSource
deriving Repr, DecidableEq

/-- Modelled from the spec: the invalid-block-exit fault raised by the
driver itself when a block exits normally inside a failed transaction. -/
def inFailedTransactionError : DriverError :=
  { name := "InFailedTransactionError"
    message := "invalid block exit detected"
    source := .client }

/-- Modelled from the spec: the fault raised on any operation against a
closed or lost connection. -/
def connectionDoesNotExistError : DriverError :=
  { name := "ConnectionDoesNotExistError"
    message := "operation on a closed connection"
    source := .client }

/-- Modelled from the spec: the server-reported failure produced when a
COPY FROM STDIN is interrupted by another operation. -/
def copyFailError : DriverError :=
  { name := "CopyFailError"
    message := "COPY interrupted before completion"
    source := .server }

/-- Modelled from the spec: what the scoped block exit performs: the SQL
finalization it issues and the exception it raises, if any. -/
structure ExitOutcome where
  action : TxAction
  raised : Option DriverError
deriving Repr, DecidableEq

/-- Modelled from the spec: the context-manager exit of a block
transaction.  A propagating exception always yields rollback; a normal
exit while the session status byte shows a failed transaction yields
rollback plus the client-sourced invalid-block-exit fault; otherwise the
block commits. -/
def blockExit (excPropagating : Bool) (st : XactStatus) : ExitOutcome :=
  if excPropagating then
    { action := .rollback, raised := none }
  else
    match st with
    | .failed => { action := .rollback, raised := some inFailedTransactionError }
    | _ => { action := .commit, raised := none }

/-- Modelled from the spec: the active sub-protocol of a session: no COPY
in progress, COPY FROM STDIN awaiting CopyDone, or COPY TO STDOUT with
the remaining unread data records. -/
inductive SubProtocol where
  | quiescent
  | copyInActive
  | copyOutActive (pending : List (List Nat))
deriving Repr, DecidableEq

/-- Modelled from the spec: what happens when any other operation is
issued while a COPY sub-protocol is active: the records the engine had
to drain, the error produced, and the sub-protocol state afterwards. -/
structure CopyInterruptOutcome where
  drained : List (List Nat)
  failure : Option DriverError
  after : SubProtocol
deriving Repr, DecidableEq

/-- Modelled from the spec: issuing any other operation during COPY.
During COPY TO STDOUT the engine reads the entire remaining result set
and raises no error; during COPY FROM STDIN the server detects the
interruption and reports a COPY failure. -/
def interruptCopy : SubProtocol → CopyInterruptOutcome
  | .copyOutActive pending => { drained := pending, failure := none, after := .quiescent }
  | .copyInActive => { drained := [], failure := some copyFailError, after := .quiescent }
  | .quiescent => { drained := [], failure := none, after := .quiescent }

/-- Modelled from the spec: a session: whether it is terminal (closed or
lost), its sub-protocol, and its transaction status byte. -/
structure Session where
  closed : Bool
  subproto : SubProtocol
  status : XactStatus
deriving Repr, DecidableEq

/-- Modelled from the spec: the operations a connection exposes. -/
inductive SessionOp where
  | prepareOp (sql : String)
  | executeOp (sql : String)
  | procOp (procId : String)
  | statementFromId (statementId : String)
  | cursorFromId (cursorId : String)
  | xactOp
  | settingsGet (key : String)
deriving Repr, DecidableEq

/-- Modelled from the spec: the wire-level request a live session would
send for an operation. -/
def opMessage : SessionOp → String
  | .prepareOp sql => "Parse " ++ sql
  | .executeOp sql => "Query " ++ sql
  | .procOp p => "Parse proc " ++ p
  | .statementFromId s => "Describe statement " ++ s
  | .cursorFromId c => "Describe portal " ++ c
  | .xactOp => "Query START TRANSACTION"
  | .settingsGet k => "Query SHOW " ++ k

/-- Modelled from the spec: dispatching an operation on a session.  A
terminal session fails fast with ConnectionDoesNotExistError before any
message is sent; otherwise the request goes to the server. -/
def performOp (s : Session) (op : SessionOp) : Except DriverError (Session × List String) :=
  if s.closed then
    .error connectionDoesNotExistError
  else
    .ok (s, [opMessage op])

/-- Modelled from the spec: a server-side cursor over a materialized
result set.  The raw position counts the rows lying before the cursor
position, exactly as the server-side portal does, and the direction
field is the configured default direction property (true is FORWARD,
the default; false is BACKWARD). -/
structure Cursor where
  rows : List Row
  pos : Nat
  direction : Bool

/-- Modelled from the spec: FETCH FORWARD n from the raw position:
the next n rows, the position advancing past them, clamped at the end. -/
def fetchForward (c : Cursor) (n : Nat) : List Row × Cursor :=
  ((c.rows.drop c.pos).take n,
    { c with pos := min (c.pos + n) c.rows.length })

/-- Modelled from the spec: FETCH BACKWARD n from the raw position: the
previous n rows in reverse order, the position moving back past them,
clamped at the beginning. -/
def fetchBackward (c : Cursor) (n : Nat) : List Row × Cursor :=
  (((c.rows.take c.pos).drop (c.pos - n)).reverse,
    { c with pos := c.pos - n })

/-- Modelled from the spec: the raw fetch direction of a read.  The
optional direction argument (defaulting to FORWARD) is interpreted
relative to the configured direction property, so that on a BACKWARD
cursor a default read fetches backward and an explicit BACKWARD read
ultimately causes a forward fetch. -/
def rawForward (c : Cursor) (d : Option Bool) : Bool :=
  d.getD true == c.direction

/-- Modelled from the spec: the read method of a cursor. -/
def Cursor.read (c : Cursor) (n : Nat) (d : Option Bool) : List Row × Cursor :=
  if rawForward c d then fetchForward c n else fetchBackward c n

/-- Modelled from the spec: the whence argument of seek: absolute,
relative, or absolute from the end. -/
inductive Whence where
  | absolute
  | relative
  | fromEnd
deriving Repr, DecidableEq

/-- Modelled from the spec: positions are clamped into the valid range
of the result set. -/
def clampPos (len : Nat) (p : Int) : Nat :=
  (max 0 (min p (len : Int))).toNat

/-- Modelled from the spec: the raw target position of a seek on a
cursor whose direction property is FORWARD: positions are taken
relative to the beginning. -/
def seekTargetFwd (c : Cursor) (p : Int) : Whence → Int
  | .absolute => p
  | .relative => (c.pos : Int) + p
  | .fromEnd => (c.rows.length : Int) - p

/-- Modelled from the spec: the raw target position of a seek on a
cursor whose direction property is BACKWARD: every seek is inverted to
simulate a reversely ordered cursor, so absolute positions count from
the end, relative movement is negated, and from-end positions count
from the beginning. -/
def seekTargetBwd (c : Cursor) (p : Int) : Whence → Int
  | .absolute => (c.rows.length : Int) - p
  | .relative => (c.pos : Int) - p
  | .fromEnd => p

/-- Modelled from the spec: the seek method of a scrollable cursor. -/
def Cursor.seek (c : Cursor) (p : Int) (w : Whence) : Cursor :=
  let target : Int := if c.direction then seekTargetFwd c p w else seekTargetBwd c p w
  { c with pos := clampPos c.rows.length target }

/-- Modelled from the spec: one cursor operation: a read with a quantity
and an optional direction argument, or a seek. -/
inductive CursorOp where
  | readOp (n : Nat) (d : Option Bool)
  | seekOp (p : Int) (w : Whence)

/-- Modelled from the spec: applying one operation, producing the rows
the operation returns (a seek returns none) and the updated cursor. -/
def applyOp (c : Cursor) : CursorOp → List Row × Cursor
  | .readOp n d => c.read n d
  | .seekOp p w => ([], c.seek p w)

/-- Modelled from the spec: running a call sequence against a cursor,
collecting the observed output of every operation. -/
def runOps (c : Cursor) : List CursorOp → List (List Row)
  | [] => []
  | op :: ops =>
    (applyOp c op).1 :: runOps (applyOp c op).2 ops

/-- Modelled from the spec: the rows still available to a read in the
raw direction a given direction argument resolves to. -/
def remaining (c : Cursor) (d : Option Bool) : Nat :=
  if rawForward c d then c.rows.length - c.pos else c.pos

/-- Modelled from the spec: a cursor is exhausted in a direction when no
rows remain in that direction. -/
def exhausted (c : Cursor) (d : Option Bool) : Prop :=
  remaining c d = 0

instance (c : Cursor) (d : Option Bool) : Decidable (exhausted c d) := by
  unfold exhausted
  infer_instance

/-- Modelled from the spec: the correspondence between a cursor and its
logically reversed twin: the twin holds the reversed rows, is configured
BACKWARD while the original is FORWARD, and both stand at the same
logical position, the raw positions mirroring each other. -/
def mirrored (c r : Cursor) : Prop :=
  c.direction = true ∧ r.direction = false ∧
  r.rows = c.rows.reverse ∧ r.pos + c.pos = c.rows.length

theorem mirrored_intro (c r : Cursor) (h1 : c.direction = true) (h2 : r.direction = false)
    (h3 : r.rows = c.rows.reverse) (h4 : r.pos + c.pos = c.rows.length) : mirrored c r :=
  ⟨h1, h2, h3, h4⟩

theorem read_eq_fetchForward (c : Cursor) (n : Nat) (d : Option Bool)
    (h : rawForward c d = true) : c.read n d = fetchForward c n := by
  unfold Cursor.read
  simp [h]

theorem read_eq_fetchBackward (c : Cursor) (n : Nat) (d : Option Bool)
    (h : rawForward c d = false) : c.read n d = fetchBackward c n := by
  unfold Cursor.read
  simp [h]

theorem take_drop_rev_swap (l : List Row) (p n : Nat) (hp : p ≤ l.length) :
    (l.drop p).take n = ((l.reverse.take (l.length - p)).drop (l.length - p - n)).reverse := by
  rw [List.take_reverse]
  have e1 : l.length - (l.length - p) = p := by omega
  rw [e1, List.drop_reverse, List.length_drop, List.reverse_reverse]
  by_cases hn : n ≤ l.length - p
  · congr 1
    omega
  · have e2 : l.length - p - (l.length - p - n) = l.length - p := by omega
    have h1 : (l.drop p).length ≤ n := by
      rw [List.length_drop]
      omega
    have h2 : (l.drop p).length ≤ l.length - p := by
      rw [List.length_drop]
    rw [e2, List.take_of_length_le h1, List.take_of_length_le h2]

theorem rev_drop_take_swap (l : List Row) (p n : Nat) (hp : p ≤ l.length) :
    ((l.take p).drop (p - n)).reverse = (l.reverse.drop (l.length - p)).take n := by
  rw [List.drop_reverse]
  have e1 : l.length - (l.length - p) = p := by omega
  rw [e1, List.take_reverse]
  have e2 : (l.take p).length - n = p - n := by
    rw [List.length_take]
    omega
  rw [e2]

theorem read_fst_of_mirrored (c r : Cursor) (h : mirrored c r) (n : Nat) (d : Option Bool) :
    (c.read n d).1 = (r.read n d).1 := by
  obtain ⟨hc, hr, hrows, hpos⟩ := h
  have hle : c.pos ≤ c.rows.length := by omega
  have hrpos : r.pos = c.rows.length - c.pos := by omega
  cases hb : d.getD true with
  | true =>
    have hcf : rawForward c d = true := by
      unfold rawForward
      rw [hb, hc]
      rfl
    have hrf : rawForward r d = false := by
      unfold rawForward
      rw [hb, hr]
      rfl
    rw [read_eq_fetchForward c n d hcf, read_eq_fetchBackward r n d hrf]
    show (c.rows.drop c.pos).take n = ((r.rows.take r.pos).drop (r.pos - n)).reverse
    rw [hrows, hrpos]
    exact take_drop_rev_swap c.rows c.pos n hle
  | false =>
    have hcf : rawForward c d = false := by
      unfold rawForward
      rw [hb, hc]
      rfl
    have hrf : rawForward r d = true := by
      unfold rawForward
      rw [hb, hr]
      rfl
    rw [read_eq_fetchBackward c n d hcf, read_eq_fetchForward r n d hrf]
    show ((c.rows.take c.pos).drop (c.pos - n)).reverse = (r.rows.drop r.pos).take n
    rw [hrows, hrpos]
    exact rev_drop_take_swap c.rows c.pos n hle

theorem read_mirrored (c r : Cursor) (h : mirrored c r) (n : Nat) (d : Option Bool) :
    mirrored (c.read n d).2 (r.read n d).2 := by
  obtain ⟨hc, hr, hrows, hpos⟩ := h
  have hlen : r.rows.length = c.rows.length := by
    rw [hrows, List.length_reverse]
  cases hb : d.getD true with
  | true =>
    have hcf : rawForward c d = true := by
      unfold rawForward
      rw [hb, hc]
      rfl
    have hrf : rawForward r d = false := by
      unfold rawForward
      rw [hb, hr]
      rfl
    rw [read_eq_fetchForward c n d hcf, read_eq_fetchBackward r n d hrf]
    refine mirrored_intro _ _ hc hr hrows ?_
    show r.pos - n + min (c.pos + n) c.rows.length = c.rows.length
    omega
  | false =>
    have hcf : rawForward c d = false := by
      unfold rawForward
      rw [hb, hc]
      rfl
    have hrf : rawForward r d = true := by
      unfold rawForward
      rw [hb, hr]
      rfl
    rw [read_eq_fetchBackward c n d hcf, read_eq_fetchForward r n d hrf]
    refine mirrored_intro _ _ hc hr hrows ?_
    show min (r.pos + n) r.rows.length + (c.pos - n) = c.rows.length
    omega

theorem seek_eq_fwd (c : Cursor) (p : Int) (w : Whence) (h : c.direction = true) :
    c.seek p w = { c with pos := clampPos c.rows.length (seekTargetFwd c p w) } := by
  unfold Cursor.seek
  rw [h]
  simp

theorem seek_eq_bwd (c : Cursor) (p : Int) (w : Whence) (h : c.direction = false) :
    c.seek p w = { c with pos := clampPos c.rows.length (seekTargetBwd c p w) } := by
  unfold Cursor.seek
  rw [h]
  simp

theorem seek_absolute_mirrored (c r : Cursor) (hc : c.direction = true)
    (hr : r.direction = false) (hrows : r.rows = c.rows.reverse) (k : Int) :
    mirrored (c.seek k .absolute) (r.seek k .absolute) := by
  have hlen : r.rows.length = c.rows.length := by
    rw [hrows, List.length_reverse]
  rw [seek_eq_fwd c k .absolute hc, seek_eq_bwd r k .absolute hr]
  refine mirrored_intro _ _ hc hr hrows ?_
  show clampPos r.rows.length (seekTargetBwd r k .absolute) +
    clampPos c.rows.length (seekTargetFwd c k .absolute) = c.rows.length
  simp only [seekTargetFwd, seekTargetBwd, clampPos, hlen]
  omega

theorem seek_mirrored (c r : Cursor) (h : mirrored c r) (p : Int) (w : Whence) :
    mirrored (c.seek p w) (r.seek p w) := by
  obtain ⟨hc, hr, hrows, hpos⟩ := h
  have hlen : r.rows.length = c.rows.length := by
    rw [hrows, List.length_reverse]
  rw [seek_eq_fwd c p w hc, seek_eq_bwd r p w hr]
  refine mirrored_intro _ _ hc hr hrows ?_
  show clampPos r.rows.length (seekTargetBwd r p w) +
    clampPos c.rows.length (seekTargetFwd c p w) = c.rows.length
  cases w <;> simp only [seekTargetFwd, seekTargetBwd, clampPos, hlen] <;> omega

theorem applyOp_of_mirrored (c r : Cursor) (h : mirrored c r) (op : CursorOp) :
    (applyOp c op).1 = (applyOp r op).1 ∧ mirrored (applyOp c op).2 (applyOp r op).2 := by
  cases op with
  | readOp n d =>
    exact ⟨read_fst_of_mirrored c r h n d, read_mirrored c r h n d⟩
  | seekOp p w =>
    exact ⟨rfl, seek_mirrored c r h p w⟩

theorem runOps_of_mirrored (ops : List CursorOp) (c r : Cursor) (h : mirrored c r) :
    runOps c ops = runOps r ops := by
  induction ops generalizing c r with
  | nil => rfl
  | cons op ops ih =>
    obtain ⟨hout, hnext⟩ := applyOp_of_mirrored c r h op
    simp only [runOps, hout, ih (applyOp c op).2 (applyOp r op).2 hnext]

/-- C3: a cursor over an ordering and a cursor over the exact reverse
ordering with the direction property set to BACKWARD answer every
sequence of seek and read calls with identical arguments (including
explicit BACKWARD read directions and negative relative seeks) with
element-wise identical results, provided the two stand at corresponding
logical positions; any sequence beginning with an absolute seek (the
form the documentation uses to align the pair) needs no position
assumption at all. -/
theorem C3_cursor_direction_symmetry :
    (∀ c r : Cursor, mirrored c r → ∀ ops : List CursorOp, runOps c ops = runOps r ops)
    ∧ (∀ c r : Cursor, c.direction = true → r.direction = false →
        r.rows = c.rows.reverse → ∀ (k : Int) (ops : List CursorOp),
        runOps c (.seekOp k .absolute :: ops) = runOps r (.seekOp k .absolute :: ops)) := by
  constructor
  · exact fun c r h ops => runOps_of_mirrored ops c r h
  · intro c r hc hr hrows k ops
    simp only [runOps, applyOp]
    exact congrArg (List.cons [])
      (runOps_of_mirrored ops _ _ (seek_absolute_mirrored c r hc hr hrows k))

/-- C3 witness: a concrete three-row cursor, its reversed twin, and a
mixed call sequence with backward reads and a negative relative seek. -/
theorem C3_cursor_direction_symmetry_witness :
    (mirrored
      (Cursor.mk [Row.mk ["i"] [.pyInt 1], Row.mk ["i"] [.pyInt 2], Row.mk ["i"] [.pyInt 3]] 0 true)
      (Cursor.mk [Row.mk ["i"] [.pyInt 3], Row.mk ["i"] [.pyInt 2], Row.mk ["i"] [.pyInt 1]] 3 false))
    ∧ runOps
      (Cursor.mk [Row.mk ["i"] [.pyInt 1], Row.mk ["i"] [.pyInt 2], Row.mk ["i"] [.pyInt 3]] 0 true)
      [.readOp 2 none, .readOp 2 (some false), .seekOp (-1) .relative, .readOp 1 none]
      = runOps
      (Cursor.mk [Row.mk ["i"] [.pyInt 3], Row.mk ["i"] [.pyInt 2], Row.mk ["i"] [.pyInt 1]] 3 false)
      [.readOp 2 none, .readOp 2 (some false), .seekOp (-1) .relative, .readOp 1 none] :=
  ⟨mirrored_intro
      (Cursor.mk [Row.mk ["i"] [.pyInt 1], Row.mk ["i"] [.pyInt 2], Row.mk ["i"] [.pyInt 3]] 0 true)
      (Cursor.mk [Row.mk ["i"] [.pyInt 3], Row.mk ["i"] [.pyInt 2], Row.mk ["i"] [.pyInt 1]] 3 false)
      rfl rfl rfl rfl,
    C3_cursor_direction_symmetry.1
      (Cursor.mk [Row.mk ["i"] [.pyInt 1], Row.mk ["i"] [.pyInt 2], Row.mk ["i"] [.pyInt 3]] 0 true)
      (Cursor.mk [Row.mk ["i"] [.pyInt 3], Row.mk ["i"] [.pyInt 2], Row.mk ["i"] [.pyInt 1]] 3 false)
      (mirrored_intro
        (Cursor.mk [Row.mk ["i"] [.pyInt 1], Row.mk ["i"] [.pyInt 2], Row.mk ["i"] [.pyInt 3]] 0 true)
        (Cursor.mk [Row.mk ["i"] [.pyInt 3], Row.mk ["i"] [.pyInt 2], Row.mk ["i"] [.pyInt 1]] 3 false)
        rfl rfl rfl rfl) _⟩

/-- C4: a read of quantity n returns fewer than n rows exactly when
fewer than n rows remain in the requested direction, and after such a
short read the cursor is exhausted in that direction and a subsequent
read in the same direction returns an empty sequence. -/
theorem rawForward_setPos (c : Cursor) (q : Nat) (d : Option Bool) :
    rawForward { c with pos := q } d = rawForward c d := rfl

theorem remaining_fwd (c : Cursor) (d : Option Bool) (h : rawForward c d = true) :
    remaining c d = c.rows.length - c.pos := by
  unfold remaining
  simp [h]

theorem remaining_bwd (c : Cursor) (d : Option Bool) (h : rawForward c d = false) :
    remaining c d = c.pos := by
  unfold remaining
  simp [h]

theorem C4_read_exhaustion (c : Cursor) (n : Nat) (d : Option Bool)
    (hinv : c.pos ≤ c.rows.length) :
    ((c.read n d).1.length < n ↔ remaining c d < n)
    ∧ ((c.read n d).1.length < n →
        exhausted (c.read n d).2 d ∧ ((c.read n d).2.read n d).1 = []) := by
  cases hb : rawForward c d with
  | true =>
    rw [read_eq_fetchForward c n d hb]
    have hrem : remaining c d = c.rows.length - c.pos := remaining_fwd c d hb
    have hb2 : rawForward (fetchForward c n).2 d = true := by
      rw [show (fetchForward c n).2 = { c with pos := min (c.pos + n) c.rows.length } from rfl,
        rawForward_setPos, hb]
    have hout : (fetchForward c n).1.length = min n (c.rows.length - c.pos) := by
      show ((c.rows.drop c.pos).take n).length = min n (c.rows.length - c.pos)
      rw [List.length_take, List.length_drop]
    constructor
    · rw [hout, hrem]
      omega
    · intro hshort
      rw [hout] at hshort
      have hpos : (fetchForward c n).2.pos = c.rows.length := by
        show min (c.pos + n) c.rows.length = c.rows.length
        omega
      constructor
      · show remaining (fetchForward c n).2 d = 0
        rw [remaining_fwd _ d hb2, hpos]
        show c.rows.length - c.rows.length = 0
        omega
      · rw [read_eq_fetchForward _ n d hb2]
        show (((fetchForward c n).2.rows.drop (fetchForward c n).2.pos).take n) = []
        rw [hpos]
        show ((c.rows.drop c.rows.length).take n) = []
        rw [List.drop_length]
        simp
  | false =>
    rw [read_eq_fetchBackward c n d hb]
    have hrem : remaining c d = c.pos := remaining_bwd c d hb
    have hb2 : rawForward (fetchBackward c n).2 d = false := by
      rw [show (fetchBackward c n).2 = { c with pos := c.pos - n } from rfl,
        rawForward_setPos, hb]
    have hout : (fetchBackward c n).1.length = min n c.pos := by
      show (((c.rows.take c.pos).drop (c.pos - n)).reverse).length = min n c.pos
      rw [List.length_reverse, List.length_drop, List.length_take]
      omega
    constructor
    · rw [hout, hrem]
      omega
    · intro hshort
      rw [hout] at hshort
      have hpos : (fetchBackward c n).2.pos = 0 := by
        show c.pos - n = 0
        omega
      constructor
      · show remaining (fetchBackward c n).2 d = 0
        rw [remaining_bwd _ d hb2, hpos]
      · rw [read_eq_fetchBackward _ n d hb2]
        show ((((fetchBackward c n).2.rows.take (fetchBackward c n).2.pos).drop
          ((fetchBackward c n).2.pos - n)).reverse) = []
        rw [hpos]
        show (((c.rows.take 0).drop (0 - n)).reverse) = []
        simp

/-- Modelled from the spec: a concrete two-row forward cursor used to
exercise the exhaustion property. -/
def sampleCursor : Cursor :=
  Cursor.mk [Row.mk ["i"] [.pyInt 1], Row.mk ["i"] [.pyInt 2]] 0 true

/-- C4 witness: a two-row forward cursor read with quantity five. -/
theorem C4_read_exhaustion_witness :
    sampleCursor.pos ≤ sampleCursor.rows.length
    ∧ (((sampleCursor.read 5 none).1.length < 5 ↔ remaining sampleCursor none < 5)
      ∧ ((sampleCursor.read 5 none).1.length < 5 →
          exhausted (sampleCursor.read 5 none).2 none
          ∧ ((sampleCursor.read 5 none).2.read 5 none).1 = [])) :=
  ⟨Nat.zero_le _, C4_read_exhaustion sampleCursor 5 none (Nat.zero_le _)⟩

/-- C1: the first reduction of a prepared statement: a single-column
result yields the first-row value of that column, a multi-column result
yields the first Row, a statement that returns no row data at all
yields the server-reported affected-row count as an integer, and a
row-data result (DML with RETURNING included) never yields a count. -/
theorem C1_first_reduction :
    (∀ (name : String) (v : PyVal) (vs : List PyVal) (rs : List Row),
      first (.rowData [name] (Row.mk [name] (v :: vs) :: rs)) = .value v)
    ∧ (∀ (n1 n2 : String) (ns : List String) (r : Row) (rs : List Row),
      first (.rowData (n1 :: n2 :: ns) (r :: rs)) = .row r)
    ∧ (∀ (cmd : String) (n : Nat), first (.cmdComplete cmd n) = .rowCount n)
    ∧ (∀ (cols : List String) (rs : List Row) (n : Nat),
      first (.rowData cols rs) ≠ .rowCount n) := by
  refine ⟨fun name v vs rs => rfl, fun n1 n2 ns r rs => rfl, fun cmd n => rfl, ?_⟩
  intro cols rs n h
  cases cols with
  | nil => simp [first] at h
  | cons c0 cs =>
    cases cs with
    | nil =>
      cases rs with
      | nil => simp [first] at h
      | cons r rs =>
        cases hv : r.values with
        | nil => simp [first, hv] at h
        | cons v vs => simp [first, hv] at h
    | cons c1 cs2 =>
      cases rs with
      | nil => simp [first] at h
      | cons r rs => simp [first] at h

/-- C9: executing a non-row-returning DML statement through the call
interface returns the pair of completed command name and affected-row
count as an integer, never a sequence of rows; in particular a single
INSERT reports the pair INSERT, 1. -/
theorem C9_dml_call_result :
    (∀ (cmd : String) (n : Nat),
      callStatement (.cmdComplete cmd n) = .completed cmd n)
    ∧ (∀ (cmd : String) (n : Nat) (rs : List Row),
      callStatement (.cmdComplete cmd n) ≠ .rows rs)
    ∧ callStatement (.cmdComplete "INSERT" 1) = .completed "INSERT" 1 :=
  ⟨fun _ _ => rfl, fun _ _ _ h => CallOut.noConfusion h, rfl⟩

/-- C2: a block transaction leaving its scope with a propagating
exception always issues rollback and never commit; a block leaving its
scope normally while the transaction status byte reports failure issues
rollback and raises the client-sourced invalid-block-exit
InFailedTransactionError instead of letting the silent
COMMIT-as-ROLLBACK pass uncaught. -/
theorem C2_block_exit_discipline :
    (∀ st : XactStatus, (blockExit true st).action = .rollback
      ∧ (blockExit true st).action ≠ .commit)
    ∧ ((blockExit false .failed).raised = some inFailedTransactionError
      ∧ inFailedTransactionError.source = .client
      ∧ inFailedTransactionError.message = "invalid block exit detected"
      ∧ (blockExit false .failed).action = .rollback
      ∧ (blockExit false .failed).action ≠ .commit) := by
  refine ⟨fun st => ⟨rfl, fun h => TxAction.noConfusion h⟩,
    rfl, rfl, rfl, rfl, fun h => TxAction.noConfusion h⟩

/-- C5: any other operation issued while a COPY TO STDOUT result
remains unconsumed makes the engine drain the entire remaining result
set without raising an error, while any other operation issued during an
unfinalized COPY FROM STDIN produces a COPY failure reported by the
server, not by the client. -/
theorem C5_copy_interruption :
    (∀ pending : List (List Nat),
      (interruptCopy (.copyOutActive pending)).drained = pending
      ∧ (interruptCopy (.copyOutActive pending)).failure = none)
    ∧ ((interruptCopy .copyInActive).failure = some copyFailError
      ∧ copyFailError.source = .server) :=
  ⟨fun _ => ⟨rfl, rfl⟩, rfl, rfl⟩

/-- C8: every operation on a terminal session fails fast with
ConnectionDoesNotExistError, uniformly for all operations, and no
request is sent to the server. -/
theorem C8_closed_session_fails_fast (s : Session) (op : SessionOp)
    (h : s.closed = true) :
    performOp s op = .error connectionDoesNotExistError := by
  unfold performOp
  rw [h]
  rfl

/-- C8 witness: a closed idle session asked to prepare a statement. -/
theorem C8_closed_session_fails_fast_witness :
    (Session.mk true .quiescent .idle).closed = true
    ∧ performOp (Session.mk true .quiescent .idle) (.prepareOp "SELECT 1")
      = .error connectionDoesNotExistError :=
  ⟨rfl, C8_closed_session_fails_fast (Session.mk true .quiescent .idle)
    (.prepareOp "SELECT 1") rfl⟩

/-- Modelled from the spec: the error raised at encode time when a
parameter value does not fit the binary layout of its type; it wraps
the originating conversion failure. -/
inductive EncError where
  | parameterError (cause : String)
deriving Repr, DecidableEq

/-- Modelled from the spec: the element conversion routine of the int
element type; an object that is not an int lacks the interfaces the
conversion requires. -/
def elemInt : PyVal → Except String Int
  | .pyInt n => .ok n
  | _ => .error "int element conversion failed: object lacks the required interfaces"

/-- Modelled from the spec: the nested shape of an array value of int
elements, with list boundaries preserved. -/
inductive IntTree where
  | leaf (n : Int)
  | node (xs : List IntTree)
deriving Repr

mutual

/-- Modelled from the spec: parsing a Python value into an array tree:
list objects delimit the boundaries of the array, and every other
object is handed to the element conversion routine. -/
def toTree : PyVal → Except String IntTree
  | .pyList xs =>
    match toTreeList xs with
    | .ok ts => .ok (.node ts)
    | .error e => .error e
  | v =>
    match elemInt v with
    | .ok n => .ok (.leaf n)
    | .error e => .error e

/-- Modelled from the spec: parsing the items of one boundary level. -/
def toTreeList : List PyVal → Except String (List IntTree)
  | [] => .ok []
  | x :: xs =>
    match toTree x, toTreeList xs with
    | .ok t, .ok ts => .ok (t :: ts)
    | .error e, _ => .error e
    | .ok _, .error e => .error e

end

/-- Modelled from the spec: the dimension sizes read off the leftmost
path of an array tree. -/
def firstDims : IntTree → List Nat
  | .leaf _ => []
  | .node [] => [0]
  | .node (x :: xs) => (xs.length + 1) :: firstDims x

mutual

/-- Modelled from the spec: whether an array tree is rectangular with
the given dimension sizes. -/
def hasDims : IntTree → List Nat → Bool
  | .leaf _, [] => true
  | .leaf _, _ :: _ => false
  | .node _, [] => false
  | .node xs, d :: ds => (xs.length == d) && allHasDims xs ds

/-- Modelled from the spec: whether every subtree in a forest is
rectangular with the given dimension sizes. -/
def allHasDims : List IntTree → List Nat → Bool
  | [], _ => true
  | x :: xs, ds => hasDims x ds && allHasDims xs ds

end

mutual

/-- Modelled from the spec: the elements of an array tree in row-major
order, the order the binary wire format stores them in. -/
def flatTree : IntTree → List Int
  | .leaf n => [n]
  | .node xs => flatForest xs

/-- Modelled from the spec: the elements of a forest in row-major
order. -/
def flatForest : List IntTree → List Int
  | [] => []
  | x :: xs => flatTree x ++ flatForest xs

end

/-- Modelled from the spec: the wire-level content of an int array: its
dimension sizes and its elements in row-major order. -/
structure PGArray where
  dims : List Nat
  elements : List Int
deriving Repr, DecidableEq

/-- Modelled from the spec: encoding an int array parameter: the value
is parsed into an array tree (list objects marking boundaries, anything
else converted as an element), a conversion failure is wrapped into
ParameterError, and the boundaries must form a rectangular shape. -/
def encodeIntArrayParam (v : PyVal) : Except EncError PGArray :=
  match toTree v with
  | .error cause => .error (.parameterError cause)
  | .ok t =>
    if hasDims t (firstDims t) then .ok (PGArray.mk (firstDims t) (flatTree t))
    else .error (.parameterError "inconsistent array dimensions")

/-- Modelled from the spec: rebuilding the nested boundaries of an
array from its dimension sizes and row-major elements. -/
def unflat : List Nat → List Int → IntTree
  | [], xs => .leaf (xs.headD 0)
  | d :: ds, xs =>
    .node ((List.range d).map (fun i => unflat ds ((xs.drop (i * ds.prod)).take ds.prod)))

/-- Modelled from the spec: decoding an int array yields the nested
structure delimited by its dimensions. -/
def decodeIntArray (a : PGArray) : IntTree :=
  unflat a.dims a.elements

/-- C6: for the int array type, whose element layout requires explicit
dimension boundaries, encoding the flat sequence of tuples
[(a,b),(c,d)] fails with ParameterError wrapping the originating int
conversion failure, while encoding the nested lists [[a,b],[c,d]]
succeeds and the two-row, two-column boundary is preserved on decode. -/
theorem C6_array_dimension_boundaries (a b c d : Int) :
    encodeIntArrayParam (.pyList [.pyTuple [.pyInt a, .pyInt b], .pyTuple [.pyInt c, .pyInt d]])
      = .error (.parameterError
        "int element conversion failed: object lacks the required interfaces")
    ∧ encodeIntArrayParam (.pyList [.pyList [.pyInt a, .pyInt b], .pyList [.pyInt c, .pyInt d]])
      = .ok (PGArray.mk [2, 2] [a, b, c, d])
    ∧ decodeIntArray (PGArray.mk [2, 2] [a, b, c, d])
      = .node [.node [.leaf a, .leaf b], .node [.leaf c, .leaf d]] :=
  ⟨rfl, rfl, rfl⟩

/-- Modelled from the spec: big-endian serialization of a natural
number into a fixed number of bytes, most significant byte first, as the
binary wire format stores multi-byte integers. -/
def beBytes : Nat → Nat → List Nat
  | 0, _ => []
  | w + 1, v => beBytes w (v / 256) ++ [v % 256]

/-- Modelled from the spec: the value of a big-endian byte sequence. -/
def beVal (bs : List Nat) : Nat :=
  bs.foldl (fun acc b => acc * 256 + b) 0

theorem beVal_append_one (xs : List Nat) (b : Nat) :
    beVal (xs ++ [b]) = beVal xs * 256 + b := by
  unfold beVal
  rw [List.foldl_append]
  rfl

theorem beVal_beBytes (w v : Nat) : beVal (beBytes w v) = v % 256 ^ w := by
  induction w generalizing v with
  | zero => simp [beBytes, beVal, Nat.mod_one]
  | succ w ih =>
    simp only [beBytes]
    rw [beVal_append_one, ih, pow_succ, mul_comm ((256:Nat) ^ w) 256, Nat.mod_mul]
    omega

/-- Modelled from the spec: encoding a signed integer into w big-endian
bytes in two-complement form: the value is reduced modulo 2 to the
8w-th power before serialization. -/
def encIntW (w : Nat) (v : Int) : List Nat :=
  beBytes w (v % ((2:Int) ^ (8 * w))).toNat

/-- Modelled from the spec: decoding w big-endian bytes as a signed
two-complement integer. -/
def decIntW (w : Nat) (bs : List Nat) : Int :=
  if ((beVal bs : Nat) : Int) < 2 ^ (8 * w - 1) then ((beVal bs : Nat) : Int)
  else ((beVal bs : Nat) : Int) - 2 ^ (8 * w)

theorem decIntW_encIntW (w : Nat) (v : Int) (hw : 1 ≤ w)
    (h1 : -((2:Int) ^ (8 * w - 1)) ≤ v) (h2 : v < (2:Int) ^ (8 * w - 1)) :
    decIntW w (encIntW w v) = v := by
  have hcast : ((2 ^ (8 * w) : Nat) : Int) = (2:Int) ^ (8 * w) := by push_cast; ring
  have hM : (0:Int) < 2 ^ (8 * w) := by positivity
  have hH : (0:Int) < 2 ^ (8 * w - 1) := by positivity
  have hsplit : (2:Int) ^ (8 * w) = 2 ^ (8 * w - 1) * 2 := by
    rw [← pow_succ]
    congr 1
    omega
  have hmod0 : 0 ≤ v % 2 ^ (8 * w) := Int.emod_nonneg v (ne_of_gt hM)
  have hmodlt : v % 2 ^ (8 * w) < 2 ^ (8 * w) := Int.emod_lt_of_pos v hM
  have htoNatlt : (v % 2 ^ (8 * w)).toNat < 2 ^ (8 * w) := by omega
  have hbv : beVal (beBytes w (v % 2 ^ (8 * w)).toNat) = (v % 2 ^ (8 * w)).toNat := by
    rw [beVal_beBytes]
    have h256 : (256:Nat) ^ w = 2 ^ (8 * w) := by
      rw [show (256:Nat) = 2 ^ 8 from rfl, ← pow_mul]
    rw [h256]
    exact Nat.mod_eq_of_lt htoNatlt
  unfold decIntW encIntW
  rw [hbv, Int.toNat_of_nonneg hmod0]
  by_cases hv : 0 ≤ v
  · have he : v % 2 ^ (8 * w) = v := Int.emod_eq_of_lt hv (by omega)
    rw [he, if_pos h2]
  · push_neg at hv
    have hvM : 0 ≤ v + 2 ^ (8 * w) := by omega
    have he0 : (v + 2 ^ (8 * w) * 1) % 2 ^ (8 * w) = v % 2 ^ (8 * w) :=
      Int.add_mul_emod_self_left v (2 ^ (8 * w)) 1
    rw [mul_one] at he0
    have he : v % 2 ^ (8 * w) = v + 2 ^ (8 * w) := by
      rw [← he0]
      exact Int.emod_eq_of_lt hvM (by omega)
    rw [he, if_neg (by omega)]
    omega

/-- Modelled from the spec: whether an integer fits the w-byte signed
range of a binary integer type. -/
def intFits (w : Nat) (n : Int) : Bool :=
  decide (-((2:Int) ^ (8 * w - 1)) ≤ n ∧ n < (2:Int) ^ (8 * w - 1))

/-- Modelled from the spec: one entry of the codec registry: the type
Oid, the predicate stating which Python values belong to the type, and
the binary encode and decode routines. -/
structure CodecEntry where
  oid : Nat
  accepts : PyVal → Bool
  enc : PyVal → Option (List Nat)
  dec : List Nat → Option PyVal

/-- Modelled from the spec: the smallint codec (INT2OID). -/
def int2Codec : CodecEntry :=
  { oid := 21
    accepts := fun v => match v with
      | .pyInt n => intFits 2 n
      | _ => false
    enc := fun v => match v with
      | .pyInt n => some (encIntW 2 n)
      | _ => none
    dec := fun bs => some (.pyInt (decIntW 2 bs)) }

/-- Modelled from the spec: the integer codec (INT4OID). -/
def int4Codec : CodecEntry :=
  { oid := 23
    accepts := fun v => match v with
      | .pyInt n => intFits 4 n
      | _ => false
    enc := fun v => match v with
      | .pyInt n => some (encIntW 4 n)
      | _ => none
    dec := fun bs => some (.pyInt (decIntW 4 bs)) }

/-- Modelled from the spec: the bigint codec (INT8OID). -/
def int8Codec : CodecEntry :=
  { oid := 20
    accepts := fun v => match v with
      | .pyInt n => intFits 8 n
      | _ => false
    enc := fun v => match v with
      | .pyInt n => some (encIntW 8 n)
      | _ => none
    dec := fun bs => some (.pyInt (decIntW 8 bs)) }

/-- Modelled from the spec: the boolean codec (BOOLOID). -/
def boolCodec : CodecEntry :=
  { oid := 16
    accepts := fun v => match v with
      | .pyBool _ => true
      | _ => false
    enc := fun v => match v with
      | .pyBool b => some [if b then 1 else 0]
      | _ => none
    dec := fun bs => match bs with
      | [0] => some (.pyBool false)
      | [1] => some (.pyBool true)
      | _ => none }

/-- Modelled from the spec: the bytea codec (BYTEAOID): payloads pass
through unchanged. -/
def byteaCodec : CodecEntry :=
  { oid := 17
    accepts := fun v => match v with
      | .pyBytes bs => bs.all (fun b => b < 256)
      | _ => false
    enc := fun v => match v with
      | .pyBytes bs => some bs
      | _ => none
    dec := fun bs => some (.pyBytes bs) }

/-- Modelled from the spec: the date codec (DATEOID): a date is its day
ordinal stored as a four-byte integer. -/
def dateCodec : CodecEntry :=
  { oid := 1082
    accepts := fun v => match v with
      | .pyDate d => intFits 4 d
      | _ => false
    enc := fun v => match v with
      | .pyDate d => some (encIntW 4 d)
      | _ => none
    dec := fun bs => some (.pyDate (decIntW 4 bs)) }

/-- Modelled from the spec: the timestamp codec (TIMESTAMPOID): a
timestamp is its microsecond ordinal stored as an eight-byte integer. -/
def timestampCodec : CodecEntry :=
  { oid := 1114
    accepts := fun v => match v with
      | .pyTimestamp t => intFits 8 t
      | _ => false
    enc := fun v => match v with
      | .pyTimestamp t => some (encIntW 8 t)
      | _ => none
    dec := fun bs => some (.pyTimestamp (decIntW 8 bs)) }

/-- Modelled from the spec: the codec registry covering the binary
fixed-width types of the Type Support table. -/
def registry : List CodecEntry :=
  [int2Codec, int4Codec, int8Codec, boolCodec, byteaCodec, dateCodec, timestampCodec]

theorem intFits_elim (w : Nat) (n : Int) (h : intFits w n = true) :
    -((2:Int) ^ (8 * w - 1)) ≤ n ∧ n < (2:Int) ^ (8 * w - 1) := by
  rw [intFits, decide_eq_true_eq] at h
  exact h

/-- C7: every codec of the registry round-trips: decoding the encoding
of any value the codec accepts yields the value back. -/
theorem C7_codec_round_trip (c : CodecEntry) (hc : c ∈ registry) (v : PyVal)
    (hv : c.accepts v = true) : (c.enc v).bind c.dec = some v := by
  simp only [registry, List.mem_cons, List.not_mem_nil, or_false] at hc
  rcases hc with rfl | rfl | rfl | rfl | rfl | rfl | rfl
  · cases v with
    | pyInt n =>
      obtain ⟨h1, h2⟩ := intFits_elim 2 n hv
      simp only [int2Codec, Option.bind]
      rw [decIntW_encIntW 2 n (by omega) h1 h2]
    | pyBool b => simp [int2Codec] at hv
    | pyStr s => simp [int2Codec] at hv
    | pyBytes bs => simp [int2Codec] at hv
    | pyDate d => simp [int2Codec] at hv
    | pyTimestamp t => simp [int2Codec] at hv
    | pyTuple vs => simp [int2Codec] at hv
    | pyList vs => simp [int2Codec] at hv
  · cases v with
    | pyInt n =>
      obtain ⟨h1, h2⟩ := intFits_elim 4 n hv
      simp only [int4Codec, Option.bind]
      rw [decIntW_encIntW 4 n (by omega) h1 h2]
    | pyBool b => simp [int4Codec] at hv
    | pyStr s => simp [int4Codec] at hv
    | pyBytes bs => simp [int4Codec] at hv
    | pyDate d => simp [int4Codec] at hv
    | pyTimestamp t => simp [int4Codec] at hv
    | pyTuple vs => simp [int4Codec] at hv
    | pyList vs => simp [int4Codec] at hv
  · cases v with
    | pyInt n =>
      obtain ⟨h1, h2⟩ := intFits_elim 8 n hv
      simp only [int8Codec, Option.bind]
      rw [decIntW_encIntW 8 n (by omega) h1 h2]
    | pyBool b => simp [int8Codec] at hv
    | pyStr s => simp [int8Codec] at hv
    | pyBytes bs => simp [int8Codec] at hv
    | pyDate d => simp [int8Codec] at hv
    | pyTimestamp t => simp [int8Codec] at hv
    | pyTuple vs => simp [int8Codec] at hv
    | pyList vs => simp [int8Codec] at hv
  · cases v with
    | pyBool b => cases b <;> rfl
    | pyInt n => simp [boolCodec] at hv
    | pyStr s => simp [boolCodec] at hv
    | pyBytes bs => simp [boolCodec] at hv
    | pyDate d => simp [boolCodec] at hv
    | pyTimestamp t => simp [boolCodec] at hv
    | pyTuple vs => simp [boolCodec] at hv
    | pyList vs => simp [boolCodec] at hv
  · cases v with
    | pyBytes bs => rfl
    | pyInt n => simp [byteaCodec] at hv
    | pyBool b => simp [byteaCodec] at hv
    | pyStr s => simp [byteaCodec] at hv
    | pyDate d => simp [byteaCodec] at hv
    | pyTimestamp t => simp [byteaCodec] at hv
    | pyTuple vs => simp [byteaCodec] at hv
    | pyList vs => simp [byteaCodec] at hv
  · cases v with
    | pyDate d =>
      obtain ⟨h1, h2⟩ := intFits_elim 4 d hv
      simp only [dateCodec, Option.bind]
      rw [decIntW_encIntW 4 d (by omega) h1 h2]
    | pyInt n => simp [dateCodec] at hv
    | pyBool b => simp [dateCodec] at hv
    | pyStr s => simp [dateCodec] at hv
    | pyBytes bs => simp [dateCodec] at hv
    | pyTimestamp t => simp [dateCodec] at hv
    | pyTuple vs => simp [dateCodec] at hv
    | pyList vs => simp [dateCodec] at hv
  · cases v with
    | pyTimestamp t =>
      obtain ⟨h1, h2⟩ := intFits_elim 8 t hv
      simp only [timestampCodec, Option.bind]
      rw [decIntW_encIntW 8 t (by omega) h1 h2]
    | pyInt n => simp [timestampCodec] at hv
    | pyBool b => simp [timestampCodec] at hv
    | pyStr s => simp [timestampCodec] at hv
    | pyBytes bs => simp [timestampCodec] at hv
    | pyDate d => simp [timestampCodec] at hv
    | pyTuple vs => simp [timestampCodec] at hv
    | pyList vs => simp [timestampCodec] at hv

/-- C7 witness: the integer codec applied to the value five. -/
theorem C7_codec_round_trip_witness :
    int4Codec ∈ registry ∧ int4Codec.accepts (.pyInt 5) = true
    ∧ (int4Codec.enc (.pyInt 5)).bind int4Codec.dec = some (.pyInt 5) :=
  ⟨by simp [registry], by decide,
    C7_codec_round_trip int4Codec (by simp [registry]) (.pyInt 5) (by decide)⟩

/-- Modelled from the spec: the index associated with a column name,
the first occurrence winning for duplicate names. -/
def Row.index_from_key (r : Row) (k : String) : Option Nat :=
  r.column_names.findIdx? (fun n => n == k)

/-- Modelled from the spec: the transformation applying to the value at
one index: a callable given as a keyword is associated through the
column name resolved to its index, a callable given positionally is
associated by index, and an absent or None entry leaves the value
unchanged. -/
def resolveTransform (r : Row) (args : List (Option (PyVal → PyVal)))
    (kw : List (String × (PyVal → PyVal))) (i : Nat) : PyVal → PyVal :=
  match kw.find? (fun p => r.index_from_key p.1 == some i) with
  | some p => p.2
  | none => (args.getD i none).getD id

/-- Modelled from the spec: applying an indexed family of
transformations to a value sequence. -/
def transformFrom (fs : Nat → PyVal → PyVal) : Nat → List PyVal → List PyVal
  | _, [] => []
  | i, v :: vs => fs i v :: transformFrom fs (i + 1) vs

/-- Modelled from the spec: the transform method of a row: a new row
with the same keys whose values are produced by the callables
associated positionally or by column name. -/
def Row.transform (r : Row) (args : List (Option (PyVal → PyVal)))
    (kw : List (String × (PyVal → PyVal))) : Row :=
  Row.mk r.column_names (transformFrom (resolveTransform r args kw) 0 r.values)

theorem transformFrom_length (fs : Nat → PyVal → PyVal) (j : Nat) (vs : List PyVal) :
    (transformFrom fs j vs).length = vs.length := by
  induction vs generalizing j with
  | nil => rfl
  | cons v vs ih => simp [transformFrom, ih]

theorem transformFrom_getElem (fs : Nat → PyVal → PyVal) (j : Nat) (vs : List PyVal)
    (i : Nat) : (transformFrom fs j vs)[i]? = (vs[i]?).map (fs (j + i)) := by
  induction vs generalizing i j with
  | nil => simp [transformFrom]
  | cons v vs ih =>
    cases i with
    | zero => simp [transformFrom]
    | succ i =>
      simp only [transformFrom, List.getElem?_cons_succ]
      rw [ih (j + 1) i]
      have e : j + 1 + i = j + (i + 1) := by omega
      rw [e]

/-- C10: the transform method returns a new Row of the same length with
the same keys, each value replaced by applying the callable resolved
for its index: the keyword callable whose column name resolves to that
index when one is given, else the positional callable at that index,
while a None or absent transformation leaves the value unchanged. -/
theorem C10_row_transform (r : Row) (args : List (Option (PyVal → PyVal)))
    (kw : List (String × (PyVal → PyVal))) :
    (r.transform args kw).column_names = r.column_names
    ∧ (r.transform args kw).values.length = r.values.length
    ∧ (∀ i : Nat, (r.transform args kw).values[i]? =
        (r.values[i]?).map (resolveTransform r args kw i))
    ∧ (∀ (i : Nat) (p : String × (PyVal → PyVal)),
        kw.find? (fun q => r.index_from_key q.1 == some i) = some p →
        (r.transform args kw).values[i]? = (r.values[i]?).map p.2)
    ∧ (∀ (i : Nat) (g : PyVal → PyVal),
        kw.find? (fun q => r.index_from_key q.1 == some i) = none →
        args.getD i none = some g →
        (r.transform args kw).values[i]? = (r.values[i]?).map g)
    ∧ (∀ i : Nat, kw.find? (fun q => r.index_from_key q.1 == some i) = none →
        args.getD i none = none →
        (r.transform args kw).values[i]? = r.values[i]?) := by
  have hget : ∀ i : Nat, (r.transform args kw).values[i]? =
      (r.values[i]?).map (resolveTransform r args kw i) := by
    intro i
    show (transformFrom (resolveTransform r args kw) 0 r.values)[i]? =
      (r.values[i]?).map (resolveTransform r args kw i)
    rw [transformFrom_getElem, Nat.zero_add]
  refine ⟨rfl, transformFrom_length _ 0 r.values, hget, ?_, ?_, ?_⟩
  · intro i p hp
    rw [hget i]
    unfold resolveTransform
    rw [hp]
  · intro i g h1 h2
    rw [hget i]
    unfold resolveTransform
    rw [h1, h2]
    rfl
  · intro i h1 h2
    rw [hget i]
    unfold resolveTransform
    rw [h1, h2]
    cases r.values[i]? <;> rfl

/-- Modelled from the spec: the product row of the documentation
example, with a text code and an integer quantity. -/
def sampleRow : Row :=
  Row.mk ["product_code", "quantity"] [.pyStr "XX9301423", .pyInt 2]

/-- C10 witness: transforming the quantity column by keyword while the
positional entry for the first column is None. -/
theorem C10_row_transform_witness :
    (sampleRow.transform [none] [("quantity", fun _ => .pyStr "two")]).column_names
      = sampleRow.column_names
    ∧ (sampleRow.transform [none] [("quantity", fun _ => .pyStr "two")]).values[0]?
      = some (.pyStr "XX9301423")
    ∧ (sampleRow.transform [none] [("quantity", fun _ => .pyStr "two")]).values[1]?
      = some (.pyStr "two") :=
  ⟨(C10_row_transform sampleRow [none] [("quantity", fun _ => .pyStr "two")]).1, rfl, rfl⟩

end PgDriver
